import Mathlib

/-!
# cp-prosemirror-build: presence overlay, change announcer and step reception

Shallow embedding of `src/index.js`.

* The shared-selection plugin (`sharedSelectionPlugin`, `findDecoration`) is
  translated statement by statement.  The ProseMirror `DecorationSet` it works
  on is an external library object; it is modelled as the list of the
  decorations it holds (absolute positions), with `find`, `add`, `remove` and
  `map` acting on that list.
* `MarkdownEditorView` is modelled as a record of its fields together with the
  part of the browser it talks to (`window.setTimeout`, `dispatchEvent`,
  `console.error`).  Exceptions are values of `Except`.
* The document engine (steps, documents, JSON codecs, rebasing) is external and
  is taken as a parameter (`Engine`).
-/

namespace CpProsemirror

/-! ## JavaScript values used as client identifiers -/

/-- Values a `clientID` can take in JavaScript: absent, `null`, a string or a number. -/
inductive ClientID where
  | undefined
  | null
  | str (s : String)
  | num (n : Nat)
deriving DecidableEq, Repr

/-- JavaScript truthiness of a client identifier (`!clientID` is its negation). -/
def ClientID.truthy : ClientID → Bool
  | .str s => s != ""
  | .num n => n != 0
  | _ => false

/-! ## Decorations and decoration sets (prosemirror-view) -/

/-- Line 103: `const sharedSelectionPluginId = "CpSharedSelectionPlugin"`. -/
def sharedSelectionPluginId : String := "CpSharedSelectionPlugin"

/-- The `type` entry of a decoration spec: `"cursor"` (a widget decoration) or
`"selection"` (an inline decoration). -/
inductive DecorationType where
  | cursor
  | selection
deriving DecidableEq, Repr

/-- A selection object as the plugin reads it: `selection.from` and `selection.to`. -/
structure Selection where
  from_ : Nat
  to_ : Nat
deriving DecidableEq, Repr

/-- A decoration: its range and the spec entries `id`, `clientID`, `type`. -/
structure Decoration where
  from_ : Nat
  to_ : Nat
  id : String
  clientID : ClientID
  type : DecorationType
deriving DecidableEq, Repr

/-- A position mapping of a transaction: the number of step maps it holds,
`mapping.map(pos, assoc)` and the `deleted` flag of `mapping.mapResult(pos, assoc)`. -/
structure Mapping where
  maps : Nat
  map : Nat → Int → Nat
  deleted : Nat → Int → Bool

/-- The mapping of a transaction without steps. -/
def Mapping.empty : Mapping :=
  { maps := 0, map := fun pos _ => pos, deleted := fun _ _ => false }

/-- Validity of a decoration in a document as `DecorationSet.add` checks it:
a widget is always valid, an inline decoration needs `from < to`. -/
def Decoration.valid (span : Decoration) : Bool :=
  match span.type with
  | .cursor => true
  | .selection => decide (span.from_ < span.to_)

/-- Mapping of one decoration through a transaction mapping.  A widget is
dropped when its position was deleted; an inline decoration is dropped when its
mapped range is empty. -/
def Decoration.map (mapping : Mapping) (span : Decoration) : Option Decoration :=
  match span.type with
  | .cursor =>
    if mapping.deleted span.from_ 1 then none
    else some { span with from_ := mapping.map span.from_ 1, to_ := mapping.map span.from_ 1 }
  | .selection =>
    let from_ := mapping.map span.from_ 1
    let to_ := mapping.map span.to_ (-1)
    if from_ ≥ to_ then none else some { span with from_ := from_, to_ := to_ }

/-- A decoration set, as the list of the decorations it holds. -/
abbrev DecorationSet := List Decoration

/-- The constant `DecorationSet.empty`. -/
def DecorationSet.empty : DecorationSet := []

/-- The call `decorationSet.find(null, null, predicate)`: the held decorations whose spec
passes the predicate. -/
def DecorationSet.find (decorationSet : DecorationSet) (predicate : Decoration → Bool) :
    List Decoration :=
  decorationSet.filter predicate

/-- The call `decorationSet.add(doc, decorations)`: invalid decorations are dropped. -/
def DecorationSet.add (decorationSet : DecorationSet) (decorations : List Decoration) :
    DecorationSet :=
  decorationSet ++ decorations.filter Decoration.valid

/-- The call `decorationSet.remove(decorations)`: every held decoration equal to one of
the given ones (same type and spec, same range) is dropped. -/
def DecorationSet.remove (decorationSet : DecorationSet) (decorations : List Decoration) :
    DecorationSet :=
  decorationSet.filter (fun span => !decorations.contains span)

/-- The call `decorationSet.map(mapping, doc)`: unchanged when the mapping holds
no step map, otherwise every decoration is mapped and the dropped ones removed. -/
def DecorationSet.map (decorationSet : DecorationSet) (mapping : Mapping) : DecorationSet :=
  if mapping.maps = 0 then decorationSet else decorationSet.filterMap (Decoration.map mapping)

/-! ## The shared selection plugin (lines 102-215) -/

/-- The predicate handed to `find` in `findDecoration` (line 212). -/
def specMatches (clientID : ClientID) (type : DecorationType) (spec : Decoration) : Bool :=
  spec.id == sharedSelectionPluginId && spec.clientID == clientID && spec.type == type

/-- Lines 210-215: the first decoration of the given client and type, or `null`. -/
def findDecoration (decorationSet : DecorationSet) (clientID : ClientID)
    (type : DecorationType) : Option Decoration :=
  let findResult := DecorationSet.find decorationSet (specMatches clientID type)
  if findResult.length > 0 then findResult.head? else none

/-- The value of `transaction.getMeta("selections")` when present: the object built by
`setSelection` (`set: true`) or by `removeSelection` (`remove: true`). -/
inductive Command where
  | set (selection : Selection) (clientID : ClientID)
  | remove (clientID : ClientID)
deriving DecidableEq, Repr

/-- Lines 142-146: the widget decoration created for a cursor. -/
def cursorWidget (pos : Nat) (clientID : ClientID) : Decoration :=
  { from_ := pos, to_ := pos, id := sharedSelectionPluginId, clientID := clientID,
    type := .cursor }

/-- Lines 174-178: the inline decoration created for a selection range. -/
def selectionInline (from_ to_ : Nat) (clientID : ClientID) : Decoration :=
  { from_ := from_, to_ := to_, id := sharedSelectionPluginId, clientID := clientID,
    type := .selection }

/-- Lines 136-155 of the `set` branch: find or create the cursor, then move it. -/
def setCursor (decorationSet : DecorationSet) (selection : Selection)
    (commandClientID : ClientID) : DecorationSet :=
  let found := findDecoration decorationSet commandClientID .cursor
  let cursorDecoration := found.getD (cursorWidget selection.from_ commandClientID)
  let decorationSet :=
    if found.isNone then DecorationSet.add decorationSet [cursorDecoration] else decorationSet
  if cursorDecoration.from_ ≠ selection.from_ then
    DecorationSet.add (DecorationSet.remove decorationSet [cursorDecoration])
      [{ cursorDecoration with from_ := selection.from_, to_ := selection.from_ }]
  else decorationSet

/-- Lines 157-181 of the `set` branch: remove, update or add the selection range. -/
def setRange (decorationSet : DecorationSet) (selection : Selection)
    (commandClientID : ClientID) : DecorationSet :=
  let selectionDecoration := findDecoration decorationSet commandClientID .selection
  if selection.from_ = selection.to_ then
    match selectionDecoration with
    | some found => DecorationSet.remove decorationSet [found]
    | none => decorationSet
  else
    match selectionDecoration with
    | some found =>
      if found.from_ ≠ selection.from_ ∨ found.to_ ≠ selection.to_ then
        DecorationSet.add (DecorationSet.remove decorationSet [found])
          [{ found with from_ := selection.from_, to_ := selection.to_ }]
      else decorationSet
    | none =>
      DecorationSet.add decorationSet
        [selectionInline selection.from_ selection.to_ commandClientID]

/-- Lines 182-195, the `remove` branch. -/
def removeDecorations (decorationSet : DecorationSet) (commandClientID : ClientID) :
    DecorationSet :=
  let decorations :=
    (findDecoration decorationSet commandClientID .cursor).toList ++
      (findDecoration decorationSet commandClientID .selection).toList
  if decorations.length > 0 then DecorationSet.remove decorationSet decorations
  else decorationSet

/-- Lines 117-197: the part of `apply` after the remapping, which handles the command
(`clientID` is the plugin's own client). -/
def handleCommand (clientID : ClientID) (command : Option Command)
    (decorationSet : DecorationSet) : DecorationSet :=
  match command with
  | none => decorationSet
  | some (.set selection commandClientID) =>
    if commandClientID = clientID then decorationSet
    else setRange (setCursor decorationSet selection commandClientID) selection commandClientID
  | some (.remove commandClientID) => removeDecorations decorationSet commandClientID

/-! ## Transactions and editor state (prosemirror-state, prosemirror-collab) -/

/-- The state of the collab plugin: the confirmed version and the unconfirmed local steps. -/
structure CollabState (Step : Type) where
  version : Nat
  unconfirmed : List Step
deriving DecidableEq, Repr

/-- A transaction, reduced to what `index.js` and the two plugins read from it. -/
structure Transaction (Doc Step : Type) where
  before : Doc
  doc : Doc
  steps : List Step
  mapping : Mapping
  selection : Selection
  selectionSet : Bool
  selections : Option Command
  collabMeta : Option (CollabState Step)

/-- Lines 110-112: `init` of the plugin state. -/
def sharedSelectionPlugin.init : DecorationSet := DecorationSet.empty

/-- Lines 113-198: `apply` of the plugin state for the plugin of client `clientID`. -/
def sharedSelectionPlugin.apply {Doc Step : Type} (clientID : ClientID)
    (transaction : Transaction Doc Step) (decorationSet : DecorationSet) : DecorationSet :=
  let decorationSet := DecorationSet.map decorationSet transaction.mapping
  let command := transaction.selections
  handleCommand clientID command decorationSet

/-- The plugin state after a sequence of transactions, starting from `init`. -/
def sharedSelectionPlugin.run {Doc Step : Type} (clientID : ClientID)
    (transactions : List (Transaction Doc Step)) : DecorationSet :=
  transactions.foldl (fun decorationSet transaction =>
    sharedSelectionPlugin.apply clientID transaction decorationSet) sharedSelectionPlugin.init

/-- The decorations of a client and type held by a set. -/
def decorationsOf (decorationSet : DecorationSet) (clientID : ClientID)
    (type : DecorationType) : List Decoration :=
  DecorationSet.find decorationSet (specMatches clientID type)

/-- A set holds at most one cursor and at most one selection range per client. -/
def Keyed (decorationSet : DecorationSet) : Prop :=
  ∀ (clientID : ClientID) (type : DecorationType),
    (decorationsOf decorationSet clientID type).length ≤ 1

/-- Not a shared-selection decoration of client `c`. -/
def othersOf (c : ClientID) (x : Decoration) : Bool :=
  !(x.id == sharedSelectionPluginId && x.clientID == c)

/-- Shape of a decoration the plugin creates: a cursor is a point, a range is not empty. -/
def WellShaped (x : Decoration) : Prop :=
  (x.type = .cursor → x.to_ = x.from_) ∧ (x.type = .selection → x.from_ < x.to_)

/-- The set the `set` command aims at: the decorations of the other clients, one cursor
at `selection.from`, and one range unless the selection is empty. -/
def canonicalSet (D : DecorationSet) (s : Selection) (c : ClientID) : DecorationSet :=
  D.filter (othersOf c) ++ [cursorWidget s.from_ c] ++
    (if s.from_ < s.to_ then [selectionInline s.from_ s.to_ c] else [])

/-- The invariant of the plugin state of client `self`. -/
def PluginInvariant (self : ClientID) (D : DecorationSet) : Prop :=
  Keyed D ∧ ∀ x ∈ D, x.clientID ≠ self ∧ WellShaped x

/-! ## Errors, collab plugin, editor state -/

/-- A thrown JavaScript error; `RangeError` is kept apart because `setSelection`
tests `error instanceof RangeError`. -/
inductive JSError where
  | rangeError (message : String)
  | typeError (message : String)
  | error (message : String)
deriving DecidableEq, Repr

/-- The test `error instanceof RangeError`. -/
def JSError.isRangeError : JSError → Bool
  | .rangeError _ => true
  | _ => false

/-- The text an error contributes to `"..." + error`. -/
def JSError.text : JSError → String
  | .rangeError message => "RangeError: " ++ message
  | .typeError message => "TypeError: " ++ message
  | .error message => "Error: " ++ message

/-- The state of one editor: document, selection, the collab plugin's state and
configured client, and the state of the shared selection plugin together with the
client it was created for. -/
structure EditorState (Doc Step : Type) where
  doc : Doc
  selection : Selection
  collab : CollabState Step
  collabClientID : ClientID
  clientID : ClientID
  decorations : DecorationSet
deriving DecidableEq, Repr

/-- The getter `state.tr`: a transaction without steps or metadata. -/
def EditorState.tr {Doc Step : Type} (state : EditorState Doc Step) : Transaction Doc Step :=
  { before := state.doc, doc := state.doc, steps := [], mapping := Mapping.empty,
    selection := state.selection, selectionSet := false, selections := none,
    collabMeta := none }

/-- The call `tr.setMeta("selections", command)`. -/
def Transaction.setSelectionsMeta {Doc Step : Type} (transaction : Transaction Doc Step)
    (command : Command) : Transaction Doc Step :=
  { transaction with selections := some command }

/-- The getter `tr.docChanged`. -/
def Transaction.docChanged {Doc Step : Type} (transaction : Transaction Doc Step) : Bool :=
  transaction.steps.length > 0

/-- The `apply` of the collab plugin's state (prosemirror-collab): a state carried as
metadata replaces the old one, a document change appends its steps to the unconfirmed
ones, anything else leaves the state alone. -/
def collabApply {Doc Step : Type} (transaction : Transaction Doc Step)
    (collab : CollabState Step) : CollabState Step :=
  match transaction.collabMeta with
  | some newState => newState
  | none =>
    if transaction.docChanged then
      { version := collab.version, unconfirmed := collab.unconfirmed ++ transaction.steps }
    else collab

/-- The call `state.apply(transaction)` (prosemirror-state): a transaction that does not
start from the state's document throws, otherwise every field takes its new value. -/
def EditorState.apply {Doc Step : Type} [DecidableEq Doc] (state : EditorState Doc Step)
    (transaction : Transaction Doc Step) : Except JSError (EditorState Doc Step) :=
  if transaction.before ≠ state.doc then
    .error (.rangeError "Applying a mismatched transaction")
  else
    .ok { doc := transaction.doc
          selection := transaction.selection
          collab := collabApply transaction state.collab
          collabClientID := state.collabClientID
          clientID := state.clientID
          decorations :=
            sharedSelectionPlugin.apply state.clientID transaction state.decorations }

/-- The result of `sendableSteps`. -/
structure Sendable (Step : Type) where
  version : Nat
  steps : List Step
deriving DecidableEq, Repr

/-- The function `sendableSteps(state)` (prosemirror-collab): `null` without unconfirmed steps. -/
def sendableSteps {Doc Step : Type} (state : EditorState Doc Step) : Option (Sendable Step) :=
  if state.collab.unconfirmed.length = 0 then none
  else some { version := state.collab.version, steps := state.collab.unconfirmed }

/-- The function `getVersion(state)` (prosemirror-collab). -/
def getVersion {Doc Step : Type} (state : EditorState Doc Step) : Nat :=
  state.collab.version

/-- The external document engine and step codec: `Step.fromJSON(schema, json)`,
`step.toJSON()`, `Selection.fromJSON(doc, json)`, `selection.toJSON()` and
`receiveTransaction(state, steps, clientIDs)`.  The decoders and `receiveTransaction`
may throw. -/
structure Engine (Doc Step JSON : Type) where
  stepFromJSON : JSON → Except JSError Step
  stepToJSON : Step → JSON
  selectionFromJSON : Doc → JSON → Except JSError Selection
  selectionToJSON : Selection → JSON
  receiveTransaction :
    EditorState Doc Step → List Step → List ClientID → Except JSError (Transaction Doc Step)

/-! ## The editor view object and the browser around it -/

/-- Line 26. -/
def MAX_STEP_HISTORY : Nat := 10000

/-- Line 27: the default debounce period in milliseconds. -/
def DEFAULT_DEBOUNCE_PERIOD : Nat := 500

/-- The payload of a change announcement (lines 319-323 and 326-330). -/
structure Detail (JSON : Type) where
  steps : List JSON
  selection : Option JSON
  version : Nat
deriving DecidableEq, Repr

/-- A `CustomEvent` as built at lines 342-346; `detail` is `null` when nothing was captured. -/
structure CustomEvent (JSON : Type) where
  type : String
  bubbles : Bool
  composed : Bool
  detail : Option (Detail JSON)
deriving DecidableEq, Repr

/-- A DOM element, by name. -/
abbrev Element := String

/-- A timer scheduled with `window.setTimeout` and not yet fired or cleared.  The only
callback ever scheduled is the one of `announceChange`. -/
structure Timer where
  handle : Nat
  delay : Nat
deriving DecidableEq, Repr

/-- The browser as the editor uses it: outstanding timers, the last timer handle handed
out (handles are positive), the events dispatched so far with their targets, the lines
written by `console.error`, and the errors thrown out of timer callbacks. -/
structure Window (JSON : Type) where
  timers : List Timer
  lastHandle : Nat
  events : List (Element × CustomEvent JSON)
  console : List String
  uncaught : List JSError
deriving DecidableEq, Repr

/-- The fields of `MarkdownEditorView` (lines 221-226).  `none` stands for `undefined`
or `null`; `view` holds `view.state`. -/
structure MarkdownEditorView (Doc Step JSON : Type) where
  clientID : ClientID
  element : Option Element
  view : Option (EditorState Doc Step)
  debouncer : Option Nat
  debounceTime : Option Nat
  debounceDetail : Option (Detail JSON)
deriving DecidableEq, Repr

/-- An editor together with the browser it runs in. -/
structure World (Doc Step JSON : Type) where
  editor : MarkdownEditorView Doc Step JSON
  window : Window JSON
deriving DecidableEq, Repr

/-- JavaScript truthiness of a number that may be absent. -/
def truthyNumber : Option Nat → Bool
  | some n => n != 0
  | none => false

/-- The call `console.error(line)`. -/
def consoleError {Doc Step JSON : Type} (w : World Doc Step JSON) (line : String) :
    World Doc Step JSON :=
  { w with window := { w.window with console := w.window.console ++ [line] } }

/-- Reading `this.view.state`: a `TypeError` when `this.view` is `null`. -/
def viewState {Doc Step JSON : Type} (w : World Doc Step JSON) :
    Except JSError (EditorState Doc Step) :=
  match w.editor.view with
  | some state => .ok state
  | none => .error (.typeError "Cannot read properties of null (reading 'state')")

/-- The call `this.view.updateState(newState)`. -/
def updateState {Doc Step JSON : Type} (w : World Doc Step JSON)
    (newState : EditorState Doc Step) : World Doc Step JSON :=
  { w with editor := { w.editor with view := some newState } }

/-- Lines 239-248: `destroy()`.  The view is released and both references are nulled;
nothing else is touched. -/
def destroy {Doc Step JSON : Type} (w : World Doc Step JSON) : World Doc Step JSON :=
  { w with editor := { w.editor with element := none, view := none } }

/-- Lines 341-351: the callback handed to `window.setTimeout`.  Reading
`this.element.dispatchEvent` throws when `this.element` is `null`, and the error leaves
the callback. -/
def debounceCallback {Doc Step JSON : Type} (w : World Doc Step JSON) : World Doc Step JSON :=
  match w.editor.element with
  | none =>
    { w with window := { w.window with uncaught := w.window.uncaught ++
        [.typeError "Cannot read properties of null (reading 'dispatchEvent')"] } }
  | some element =>
    { editor := { w.editor with debouncer := none, debounceDetail := none }
      window := { w.window with events := w.window.events ++
        [(element, { type := "pmdocumentchange", bubbles := true, composed := true,
                     detail := w.editor.debounceDetail })] } }

/-- The browser runs an outstanding timer: it leaves the list of outstanding timers and
its callback runs.  A handle that is not outstanding does nothing. -/
def fireTimer {Doc Step JSON : Type} (w : World Doc Step JSON) (handle : Nat) :
    World Doc Step JSON :=
  match w.window.timers.find? (fun timer => timer.handle == handle) with
  | none => w
  | some timer =>
    debounceCallback { w with window := { w.window with timers := w.window.timers.erase timer } }

/-- Lines 337-353: `announceChange(detail)`. -/
def announceChange {Doc Step JSON : Type} (w : World Doc Step JSON) (detail : Detail JSON) :
    World Doc Step JSON :=
  let w : World Doc Step JSON := { w with editor := { w.editor with debounceDetail := some detail } }
  if !truthyNumber w.editor.debouncer then
    let handle := w.window.lastHandle + 1
    let delay := if truthyNumber w.editor.debounceTime then w.editor.debounceTime.getD 0
      else DEFAULT_DEBOUNCE_PERIOD
    { editor := { w.editor with debouncer := some handle }
      window := { w.window with lastHandle := handle,
                                timers := w.window.timers ++ [{ handle := handle, delay := delay }] } }
  else w

/-- Lines 313-335: `dispatchTransaction(transaction)`. -/
def dispatchTransaction {Doc Step JSON : Type} [DecidableEq Doc] (E : Engine Doc Step JSON)
    (w : World Doc Step JSON) (transaction : Transaction Doc Step) : World Doc Step JSON :=
  match viewState w >>= fun state => state.apply transaction with
  | .error error => consoleError w ("Error applying transaction: " ++ error.text)
  | .ok newState =>
    let w := updateState w newState
    match sendableSteps newState with
    | some sendable =>
      announceChange w
        { steps := sendable.steps.map E.stepToJSON
          selection :=
            if transaction.selectionSet then some (E.selectionToJSON transaction.selection)
            else none
          version := sendable.version }
    | none =>
      if transaction.selectionSet then
        announceChange w
          { steps := []
            selection := some (E.selectionToJSON transaction.selection)
            version := getVersion newState }
      else w

/-- The call `this.view.dispatch(transaction)`: the view hands the transaction to the
`dispatchTransaction` prop installed at line 359. -/
def viewDispatch {Doc Step JSON : Type} [DecidableEq Doc] (E : Engine Doc Step JSON)
    (w : World Doc Step JSON) (transaction : Transaction Doc Step) : World Doc Step JSON :=
  dispatchTransaction E w transaction

/-- Lines 278-298: `setSelection(selection, clientID)`; `selection` is `none` for `null`. -/
def setSelection {Doc Step JSON : Type} [DecidableEq Doc] (E : Engine Doc Step JSON)
    (w : World Doc Step JSON) (selection : Option JSON) (clientID : ClientID) :
    World Doc Step JSON :=
  match selection with
  | none => w
  | some json =>
    if !clientID.truthy || clientID = w.editor.clientID then w
    else
      match viewState w >>= fun state =>
          (E.selectionFromJSON state.doc json).map fun parsed => (state, parsed) with
      | .error error =>
        if error.isRangeError then w
        else consoleError w ("Error setting selection: " ++ error.text)
      | .ok (state, parsed) =>
        viewDispatch E w (state.tr.setSelectionsMeta (.set parsed clientID))

/-- Lines 300-310: `removeSelection(clientID)`. -/
def removeSelection {Doc Step JSON : Type} [DecidableEq Doc] (E : Engine Doc Step JSON)
    (w : World Doc Step JSON) (clientID : ClientID) : World Doc Step JSON :=
  match viewState w with
  | .error error => consoleError w ("Error removing selection: " ++ error.text)
  | .ok state => viewDispatch E w (state.tr.setSelectionsMeta (.remove clientID))

/-- Lines 267-270: the statements of `receiveSteps` that may throw, up to the new state. -/
def receiveStepsState {Doc Step JSON : Type} [DecidableEq Doc] (E : Engine Doc Step JSON)
    (w : World Doc Step JSON) (steps : List JSON) (clientID : ClientID) :
    Except JSError (EditorState Doc Step) := do
  let clientIDs := List.replicate steps.length clientID
  let state ← viewState w
  let decoded ← steps.mapM E.stepFromJSON
  let transaction ← E.receiveTransaction state decoded clientIDs
  state.apply transaction

/-- Lines 265-276: `receiveSteps(steps, version, selection, clientID)`.  The body never
reads `version`. -/
def receiveSteps {Doc Step JSON : Type} [DecidableEq Doc] (E : Engine Doc Step JSON)
    (w : World Doc Step JSON) (steps : List JSON) (version : Nat) (selection : Option JSON)
    (clientID : ClientID) : World Doc Step JSON :=
  match receiveStepsState E w steps clientID with
  | .error error => consoleError w ("Error receiving steps: " ++ error.text)
  | .ok newState => setSelection E (updateState w newState) selection clientID

/-- The event the debounce callback dispatches for a captured payload (lines 342-346). -/
def changeEvent {JSON : Type} (detail : Option (Detail JSON)) : CustomEvent JSON :=
  { type := "pmdocumentchange", bubbles := true, composed := true, detail := detail }

/-- The delay `this.debounceTime || DEFAULT_DEBOUNCE_PERIOD` (line 351). -/
def debounceDelay (debounceTime : Option Nat) : Nat :=
  if truthyNumber debounceTime then debounceTime.getD 0 else DEFAULT_DEBOUNCE_PERIOD

/-! ## A small document engine for the examples

Documents are texts (lists of character codes), a step inserts one character, JSON
values are lists of numbers. -/

/-- A text document. -/
abbrev DemoDoc := List Nat

/-- A JSON value of the example engine. -/
abbrev DemoJSON := List Nat

/-- A step inserting character `char` at position `pos`. -/
structure DemoStep where
  pos : Nat
  char : Nat
deriving DecidableEq, Repr

/-- Applying a step; it fails when the position lies outside the document. -/
def DemoStep.apply (step : DemoStep) (doc : DemoDoc) : Except JSError DemoDoc :=
  if step.pos ≤ doc.length then .ok (doc.take step.pos ++ [step.char] ++ doc.drop step.pos)
  else .error (.error "TransformError: position out of range")

/-- Mapping of a position through an insertion. -/
def DemoStep.mapPos (step : DemoStep) (pos : Nat) (assoc : Int) : Nat :=
  if pos < step.pos then pos
  else if pos = step.pos ∧ assoc < 0 then pos
  else pos + 1

/-- The mapping of a sequence of insertions. -/
def demoMapping (steps : List DemoStep) : Mapping :=
  { maps := steps.length
    map := fun pos assoc => steps.foldl (fun p step => step.mapPos p assoc) pos
    deleted := fun _ _ => false }

/-- Decoding of a step: `[pos, char]`. -/
def demoStepFromJSON : DemoJSON → Except JSError DemoStep
  | [pos, char] => .ok { pos := pos, char := char }
  | _ => .error (.rangeError "Invalid input for Step.fromJSON")

/-- Decoding of a selection `[anchor, head]`; positions outside the document throw a
`RangeError`. -/
def demoSelectionFromJSON (doc : DemoDoc) : DemoJSON → Except JSError Selection
  | [anchor, head] =>
    if anchor ≤ doc.length ∧ head ≤ doc.length then
      .ok { from_ := min anchor head, to_ := max anchor head }
    else .error (.rangeError "Position out of range")
  | _ => .error (.rangeError "Invalid input for Selection.fromJSON")

/-- Reception of confirmed steps in the example engine: the confirmed version advances by
the number of steps, steps of this client confirm its oldest unconfirmed steps, the steps
of other clients are applied to the document.  Rebasing is left out: a batch of foreign
steps arriving while local steps are unconfirmed throws. -/
def demoReceiveTransaction (state : EditorState DemoDoc DemoStep) (steps : List DemoStep)
    (clientIDs : List ClientID) : Except JSError (Transaction DemoDoc DemoStep) :=
  let version := state.collab.version + steps.length
  let ours := (clientIDs.takeWhile (fun clientID => clientID == state.collabClientID)).length
  let unconfirmed := state.collab.unconfirmed.drop ours
  let steps := steps.drop ours
  if steps.isEmpty then
    .ok { state.tr with collabMeta := some { version := version, unconfirmed := unconfirmed } }
  else if !unconfirmed.isEmpty then
    .error (.error "rebasing is not part of the example engine")
  else
    (steps.foldlM (fun (doc : DemoDoc) (step : DemoStep) => step.apply doc) state.doc).map fun doc =>
      { before := state.doc, doc := doc, steps := steps, mapping := demoMapping steps,
        selection :=
          { from_ := (demoMapping steps).map state.selection.from_ 1,
            to_ := (demoMapping steps).map state.selection.to_ 1 },
        selectionSet := false, selections := none,
        collabMeta := some { version := version, unconfirmed := [] } }

/-- The example engine. -/
def demoEngine : Engine DemoDoc DemoStep DemoJSON :=
  { stepFromJSON := demoStepFromJSON
    stepToJSON := fun step => [step.pos, step.char]
    selectionFromJSON := demoSelectionFromJSON
    selectionToJSON := fun selection => [selection.from_, selection.to_]
    receiveTransaction := demoReceiveTransaction }

/-- The state of the example editor: client `"A"`, the text `"hi"`, confirmed version 5,
no unconfirmed steps, no presence decorations. -/
def demoState : EditorState DemoDoc DemoStep :=
  { doc := [104, 105], selection := { from_ := 2, to_ := 2 },
    collab := { version := 5, unconfirmed := [] },
    collabClientID := .str "A", clientID := .str "A", decorations := [] }

/-- A live editor of client `"A"` in state `demoState` with an idle announcer. -/
def demoWorld : World DemoDoc DemoStep DemoJSON :=
  { editor :=
      { clientID := .str "A"
        element := some "editor"
        view := some demoState
        debouncer := none
        debounceTime := none
        debounceDetail := none }
    window := { timers := [], lastHandle := 0, events := [], console := [], uncaught := [] } }

/-- A local edit of the example editor: `"!"` is appended to `"hi"` by a transaction that
does not set the selection (as `setBlockType` or `toggleMark` transactions do not). -/
def demoEdit : Transaction DemoDoc DemoStep :=
  { before := [104, 105], doc := [104, 105, 33], steps := [{ pos := 2, char := 33 }],
    mapping := demoMapping [{ pos := 2, char := 33 }],
    selection := { from_ := 3, to_ := 3 }, selectionSet := false, selections := none,
    collabMeta := none }


/-! ## The presence overlay: lemmas -/

theorem findDecoration_eq_head (D : DecorationSet) (c : ClientID) (k : DecorationType) :
    findDecoration D c k = (D.filter (specMatches c k)).head? := by
  unfold findDecoration DecorationSet.find
  cases h : D.filter (specMatches c k) <;> simp

theorem findDecoration_some {D : DecorationSet} {c : ClientID} {k : DecorationType}
    {d : Decoration} (h : findDecoration D c k = some d) :
    d ∈ D ∧ specMatches c k d = true := by
  rw [findDecoration_eq_head] at h
  have hm : d ∈ D.filter (specMatches c k) := List.mem_of_mem_head? h
  exact List.mem_filter.mp hm

theorem findDecoration_none {D : DecorationSet} {c : ClientID} {k : DecorationType}
    (h : findDecoration D c k = none) : D.filter (specMatches c k) = [] := by
  rw [findDecoration_eq_head] at h
  simpa using h

theorem keyed_filter_eq {D : DecorationSet} (hk : Keyed D) {c : ClientID}
    {k : DecorationType} {d : Decoration} (h : findDecoration D c k = some d) :
    D.filter (specMatches c k) = [d] := by
  rw [findDecoration_eq_head] at h
  have hl := hk c k
  unfold decorationsOf DecorationSet.find at hl
  cases hf : D.filter (specMatches c k) with
  | nil => rw [hf] at h; simp at h
  | cons a t =>
    rw [hf] at h hl
    simp at h hl
    subst h; subst hl; rfl

theorem keyed_unique {D : DecorationSet} (hk : Keyed D) {c : ClientID}
    {k : DecorationType} {d x : Decoration} (h : findDecoration D c k = some d)
    (hx : x ∈ D) (hm : specMatches c k x = true) : x = d := by
  have := keyed_filter_eq hk h
  have hx2 : x ∈ D.filter (specMatches c k) := List.mem_filter.mpr ⟨hx, hm⟩
  rw [this] at hx2
  simpa using hx2

theorem remove_single {D : DecorationSet} (hk : Keyed D) {c : ClientID}
    {k : DecorationType} {d : Decoration} (h : findDecoration D c k = some d) :
    DecorationSet.remove D [d] = D.filter (fun x => !specMatches c k x) := by
  unfold DecorationSet.remove
  apply List.filter_congr
  intro x hx
  by_cases hm : specMatches c k x = true
  · have := keyed_unique hk h hx hm
    subst this
    simp [hm]
  · have hne : x ≠ d := by
      intro he; subst he; exact hm (findDecoration_some h).2
    simp [hm, hne]


theorem specMatches_iff {c : ClientID} {k : DecorationType} {x : Decoration} :
    specMatches c k x = true ↔ x.id = sharedSelectionPluginId ∧ x.clientID = c ∧ x.type = k := by
  simp [specMatches, and_assoc]

theorem specMatches_inj {c c2 : ClientID} {k k2 : DecorationType} {x : Decoration}
    (h1 : specMatches c k x = true) (h2 : specMatches c2 k2 x = true) : c = c2 ∧ k = k2 := by
  rw [specMatches_iff] at h1 h2
  exact ⟨h1.2.1.symm.trans h2.2.1, h1.2.2.symm.trans h2.2.2⟩

theorem keyed_filter {D : DecorationSet} (hk : Keyed D) (q : Decoration → Bool) :
    Keyed (D.filter q) := by
  intro c k
  have h := hk c k
  unfold decorationsOf DecorationSet.find at *
  rw [List.filter_filter]
  refine le_trans ?_ h
  apply List.Sublist.length_le
  apply List.monotone_filter_right
  intro x hx
  simp at hx
  exact hx.1

theorem keyed_of_perm {D R : DecorationSet} (hk : Keyed D) (hp : R.Perm D) : Keyed R := by
  intro c k
  have h := hk c k
  unfold decorationsOf DecorationSet.find at *
  rw [(hp.filter _).length_eq]
  exact h

theorem keyed_update {D R new : DecorationSet} (hk : Keyed D) {c : ClientID}
    {k : DecorationType} (hnew : ∀ x ∈ new, specMatches c k x = true)
    (hlen : new.length ≤ 1)
    (hp : R.Perm (D.filter (fun x => !specMatches c k x) ++ new)) : Keyed R := by
  apply keyed_of_perm _ hp
  intro c2 k2
  unfold decorationsOf DecorationSet.find
  rw [List.filter_append, List.filter_filter, List.length_append]
  by_cases hkey : c2 = c ∧ k2 = k
  · obtain ⟨rfl, rfl⟩ := hkey
    have h0 : List.filter (fun a => specMatches c2 k2 a && !specMatches c2 k2 a) D = [] := by
      simp
    rw [h0]
    simp
    exact le_trans (List.length_filter_le _ _) hlen
  · have h0 : List.filter (specMatches c2 k2) new = [] := by
      rw [List.filter_eq_nil_iff]
      intro x hx hm
      have := specMatches_inj hm (hnew x hx)
      exact hkey this
    rw [h0]
    simp
    have h := hk c2 k2
    unfold decorationsOf DecorationSet.find at h
    refine le_trans ?_ h
    apply List.Sublist.length_le
    apply List.monotone_filter_right
    intro x hx
    simp at hx
    exact hx.1

theorem split_found {D : DecorationSet} (hk : Keyed D) {c : ClientID}
    {k : DecorationType} {d : Decoration} (h : findDecoration D c k = some d) :
    D.Perm (D.filter (fun x => !specMatches c k x) ++ [d]) := by
  have h1 := (List.filter_append_perm (specMatches c k) D).symm
  rw [keyed_filter_eq hk h] at h1
  exact h1.trans List.perm_append_comm

theorem filter_not_of_none {D : DecorationSet} {c : ClientID} {k : DecorationType}
    (h : findDecoration D c k = none) : D.filter (fun x => !specMatches c k x) = D := by
  rw [List.filter_eq_self]
  intro x hx
  have := findDecoration_none h
  rw [List.filter_eq_nil_iff] at this
  simpa using this x hx

theorem setCursor_perm {D : DecorationSet} (hk : Keyed D) (s : Selection) (c : ClientID) :
    ∃ d, specMatches c .cursor d = true ∧ d.from_ = s.from_ ∧
      (d = cursorWidget s.from_ c ∨ d ∈ D) ∧
      (setCursor D s c).Perm (D.filter (fun x => !specMatches c .cursor x) ++ [d]) := by
  unfold setCursor
  cases hf : findDecoration D c .cursor with
  | none =>
    refine ⟨cursorWidget s.from_ c, by simp [specMatches, cursorWidget], rfl, Or.inl rfl, ?_⟩
    simp [DecorationSet.add, Decoration.valid, cursorWidget, filter_not_of_none hf]
  | some d =>
    have hm := (findDecoration_some hf).2
    have hmem := (findDecoration_some hf).1
    by_cases hpos : d.from_ = s.from_
    · refine ⟨d, hm, hpos, Or.inr hmem, ?_⟩
      simp [hpos]
      exact split_found hk hf
    · have hd : ({ d with from_ := s.from_, to_ := s.from_ } : Decoration) = cursorWidget s.from_ c := by
        rw [specMatches_iff] at hm
        simp [cursorWidget, hm.1, hm.2.1, hm.2.2]
      refine ⟨cursorWidget s.from_ c, by simp [specMatches, cursorWidget], rfl, Or.inl rfl, ?_⟩
      simp only [Option.isNone_some, Option.getD_some, hpos, ne_eq, not_false_eq_true, if_true, hd]
      simp [DecorationSet.add, remove_single hk hf, Decoration.valid, cursorWidget]


theorem setRange_perm {D : DecorationSet} (hk : Keyed D) (s : Selection) (c : ClientID)
    (hv : s.from_ ≤ s.to_ ∨ ∀ x ∈ D, x.type = .selection → x.from_ < x.to_) :
    (setRange D s c).Perm (D.filter (fun x => !specMatches c .selection x) ++
      (if s.from_ < s.to_ then [selectionInline s.from_ s.to_ c] else [])) := by
  unfold setRange
  cases hf : findDecoration D c .selection with
  | none =>
    by_cases hlt : s.from_ < s.to_
    · have hne : s.from_ ≠ s.to_ := Nat.ne_of_lt hlt
      simp [hne, hlt, DecorationSet.add, Decoration.valid, selectionInline,
        filter_not_of_none hf]
    · by_cases heq : s.from_ = s.to_
      · simp [heq, filter_not_of_none hf]
      · simp [heq, hlt, DecorationSet.add, Decoration.valid, selectionInline,
          filter_not_of_none hf]
  | some d =>
    have hm := (findDecoration_some hf).2
    have hmem := (findDecoration_some hf).1
    have hm2 := specMatches_iff.mp hm
    by_cases heq : s.from_ = s.to_
    · have hlt : ¬ s.from_ < s.to_ := by omega
      simp only [heq, if_true, lt_irrefl, if_false, List.append_nil]
      rw [remove_single hk hf]
    · simp only [heq, if_false]
      by_cases hsame : d.from_ = s.from_ ∧ d.to_ = s.to_
      · have hd : d = selectionInline s.from_ s.to_ c := by
          cases d
          simp only [selectionInline] at *
          simp_all
        have hlt : s.from_ < s.to_ := by
          rcases hv with h | h
          · omega
          · have := h d hmem hm2.2.2
            omega
        simp only [hsame.1, hsame.2, ne_eq, not_true_eq_false, or_self, if_false, hlt, if_true]
        rw [← hd]
        exact split_found hk hf
      · have hdiff : d.from_ ≠ s.from_ ∨ d.to_ ≠ s.to_ := by
          by_contra hc
          push_neg at hc
          exact hsame hc
        have hd : ({ d with from_ := s.from_, to_ := s.to_ } : Decoration)
            = selectionInline s.from_ s.to_ c := by
          simp [selectionInline, hm2.1, hm2.2.1, hm2.2.2]
        simp only [hdiff, if_true, hd]
        by_cases hlt : s.from_ < s.to_
        · simp [hlt, DecorationSet.add, remove_single hk hf, Decoration.valid, selectionInline]
        · simp [hlt, DecorationSet.add, remove_single hk hf, Decoration.valid, selectionInline]

theorem mem_toList_find {D : DecorationSet} (hk : Keyed D) (c : ClientID) (k : DecorationType)
    {x : Decoration} (hx : x ∈ D) :
    x ∈ (findDecoration D c k).toList ↔ specMatches c k x = true := by
  cases hf : findDecoration D c k with
  | none =>
    have := findDecoration_none hf
    rw [List.filter_eq_nil_iff] at this
    simpa using this x hx
  | some d =>
    simp only [Option.toList_some, List.mem_singleton]
    constructor
    · intro h; subst h; exact (findDecoration_some hf).2
    · intro h; exact keyed_unique hk hf hx h

theorem removeDecorations_eq {D : DecorationSet} (hk : Keyed D) (c : ClientID) :
    removeDecorations D c = D.filter (othersOf c) := by
  have h1 : removeDecorations D c = DecorationSet.remove D
      ((findDecoration D c .cursor).toList ++ (findDecoration D c .selection).toList) := by
    unfold removeDecorations
    show (if ((findDecoration D c .cursor).toList ++
      (findDecoration D c .selection).toList).length > 0 then _ else _) = _
    split
    · rfl
    · next h =>
      have : (findDecoration D c .cursor).toList ++ (findDecoration D c .selection).toList = [] := by
        apply List.eq_nil_of_length_eq_zero
        omega
      rw [this]
      simp [DecorationSet.remove]
  rw [h1]
  unfold DecorationSet.remove
  apply List.filter_congr
  intro x hx
  have hc := mem_toList_find hk c .cursor hx
  have hs := mem_toList_find hk c .selection hx
  rw [specMatches_iff] at hc hs
  have hmem : (List.contains ((findDecoration D c .cursor).toList ++
      (findDecoration D c .selection).toList) x = true) ↔
      (x.id = sharedSelectionPluginId ∧ x.clientID = c) := by
    have hcm : ∀ l : List Decoration, (l.contains x = true ↔ x ∈ l) := fun l => by simp
    rw [hcm, List.mem_append, hc, hs]
    constructor
    · rintro (h | h) <;> exact ⟨h.1, h.2.1⟩
    · intro h
      cases ht : x.type
      · exact Or.inl ⟨h.1, h.2, rfl⟩
      · exact Or.inr ⟨h.1, h.2, rfl⟩
  unfold othersOf
  by_cases hxc : x.id = sharedSelectionPluginId ∧ x.clientID = c
  · have := hmem.mpr hxc
    rw [this]
    simp [hxc.1, hxc.2]
  · have hn : ¬ (List.contains ((findDecoration D c .cursor).toList ++
      (findDecoration D c .selection).toList) x = true) := fun h => hxc (hmem.mp h)
    simp only [Bool.not_eq_true] at hn
    rw [hn]
    simp
    exact not_and_or.mp hxc


theorem filter_others (D : DecorationSet) (c : ClientID) :
    D.filter (fun x => !specMatches c .selection x && !specMatches c .cursor x)
      = D.filter (othersOf c) := by
  apply List.filter_congr
  intro x _
  unfold othersOf specMatches
  cases ht : x.type <;> simp [ht]

theorem setCursor_keyed {D : DecorationSet} (hk : Keyed D) (s : Selection) (c : ClientID) :
    Keyed (setCursor D s c) := by
  obtain ⟨d, hm, _, _, hp⟩ := setCursor_perm hk s c
  exact keyed_update hk (by simpa using hm) (by simp) hp

theorem setCursor_mem {D : DecorationSet} (hk : Keyed D) (s : Selection) (c : ClientID)
    {x : Decoration} (hx : x ∈ setCursor D s c) : x ∈ D ∨ x = cursorWidget s.from_ c := by
  obtain ⟨d, _, _, hor, hp⟩ := setCursor_perm hk s c
  have := hp.mem_iff.mp hx
  simp only [List.mem_append, List.mem_filter, List.mem_singleton] at this
  rcases this with h | h
  · exact Or.inl h.1
  · subst h
    rcases hor with h | h
    · exact Or.inr h
    · exact Or.inl h

theorem setRange_keyed {D : DecorationSet} (hk : Keyed D) (s : Selection) (c : ClientID)
    (hv : s.from_ ≤ s.to_ ∨ ∀ x ∈ D, x.type = .selection → x.from_ < x.to_) :
    Keyed (setRange D s c) := by
  have hp := setRange_perm hk s c hv
  refine keyed_update hk ?_ ?_ hp
  · intro x hx
    split at hx
    · simp at hx; subst hx; simp [specMatches, selectionInline]
    · simp at hx
  · split <;> simp

theorem setRange_mem {D : DecorationSet} (hk : Keyed D) (s : Selection) (c : ClientID)
    (hv : s.from_ ≤ s.to_ ∨ ∀ x ∈ D, x.type = .selection → x.from_ < x.to_)
    {x : Decoration} (hx : x ∈ setRange D s c) :
    x ∈ D ∨ (x = selectionInline s.from_ s.to_ c ∧ s.from_ < s.to_) := by
  have := (setRange_perm hk s c hv).mem_iff.mp hx
  simp only [List.mem_append, List.mem_filter] at this
  rcases this with h | h
  · exact Or.inl h.1
  · split at h
    · next hlt => simp at h; exact Or.inr ⟨h, hlt⟩
    · simp at h

theorem set_perm_canonical {D : DecorationSet} (hk : Keyed D)
    (hw : ∀ x ∈ D, WellShaped x) (s : Selection) (c : ClientID) :
    (setRange (setCursor D s c) s c).Perm (canonicalSet D s c) := by
  obtain ⟨d, hm, hfrom, hor, hp1⟩ := setCursor_perm hk s c
  have hd : d = cursorWidget s.from_ c := by
    rcases hor with h | h
    · exact h
    · have hm2 := specMatches_iff.mp hm
      have := (hw d h).1 hm2.2.2
      cases d
      simp only [cursorWidget] at *
      simp_all
  subst hd
  have hk1 := setCursor_keyed hk s c
  have hv1 : ∀ x ∈ setCursor D s c, x.type = .selection → x.from_ < x.to_ := by
    intro x hx ht
    rcases setCursor_mem hk s c hx with h | h
    · exact (hw x h).2 ht
    · subst h; simp [cursorWidget] at ht
  have hp2 := setRange_perm hk1 s c (Or.inr hv1)
  refine hp2.trans ?_
  unfold canonicalSet
  apply List.Perm.append_right
  have := hp1.filter (fun x => !specMatches c .selection x)
  refine this.trans ?_
  rw [List.filter_append, List.filter_filter, filter_others]
  simp [specMatches, cursorWidget]


theorem map_preserves {mapping : Mapping} {x y : Decoration}
    (h : Decoration.map mapping x = some y) :
    y.id = x.id ∧ y.clientID = x.clientID ∧ y.type = x.type ∧ WellShaped y := by
  unfold Decoration.map at h
  cases ht : x.type
  · rw [ht] at h
    simp only at h
    split at h
    · simp at h
    · simp only [Option.some.injEq] at h
      subst h
      simp [WellShaped, ht]
  · rw [ht] at h
    simp only at h
    split at h
    · simp at h
    · next hlt =>
      simp only [Option.some.injEq] at h
      subst h
      simp only [WellShaped, ht, true_and]
      simp
      omega

theorem specMatches_map {mapping : Mapping} {x y : Decoration}
    (h : Decoration.map mapping x = some y) (c : ClientID) (k : DecorationType) :
    specMatches c k y = specMatches c k x := by
  obtain ⟨h1, h2, h3, _⟩ := map_preserves h
  simp [specMatches, h1, h2, h3]

theorem invariant_map {self : ClientID} {D : DecorationSet} (h : PluginInvariant self D)
    (mapping : Mapping) : PluginInvariant self (DecorationSet.map D mapping) := by
  unfold DecorationSet.map
  split
  · exact h
  · constructor
    · intro c k
      have hk := h.1 c k
      unfold decorationsOf DecorationSet.find at *
      rw [List.filter_filterMap]
      have : List.filterMap (fun x => Option.filter (specMatches c k) (Decoration.map mapping x)) D
          = List.filterMap (Decoration.map mapping) (List.filter (specMatches c k) D) := by
        rw [List.filterMap_filter]
        apply List.filterMap_congr
        intro x _
        cases hm : Decoration.map mapping x with
        | none => simp
        | some y =>
          have := specMatches_map hm c k
          by_cases hx : specMatches c k x = true
          · simp [Option.filter, hx, this]
          · simp [Option.filter, hx, this]
      rw [this]
      exact le_trans (List.length_filterMap_le _ _) hk
    · intro y hy
      rw [List.mem_filterMap] at hy
      obtain ⟨x, hx, hm⟩ := hy
      obtain ⟨_, h2, _, h4⟩ := map_preserves hm
      exact ⟨by rw [h2]; exact (h.2 x hx).1, h4⟩

theorem invariant_handleCommand {self : ClientID} {D : DecorationSet}
    (h : PluginInvariant self D) (command : Option Command) :
    PluginInvariant self (handleCommand self command D) := by
  unfold handleCommand
  match command with
  | none => exact h
  | some (.remove c) =>
    simp only
    rw [removeDecorations_eq h.1]
    exact ⟨keyed_filter h.1 _, fun x hx => h.2 x (List.mem_filter.mp hx).1⟩
  | some (.set s c) =>
    simp only
    split
    · exact h
    · next hne =>
      have hk1 := setCursor_keyed h.1 s c
      have hw1 : ∀ x ∈ setCursor D s c, x.clientID ≠ self ∧ WellShaped x := by
        intro x hx
        rcases setCursor_mem h.1 s c hx with hx | hx
        · exact h.2 x hx
        · subst hx
          exact ⟨hne, by simp [WellShaped, cursorWidget]⟩
      have hv1 : ∀ x ∈ setCursor D s c, x.type = .selection → x.from_ < x.to_ :=
        fun x hx => (hw1 x hx).2.2
      refine ⟨setRange_keyed hk1 s c (Or.inr hv1), ?_⟩
      intro x hx
      rcases setRange_mem hk1 s c (Or.inr hv1) hx with hx | ⟨hx, hlt⟩
      · exact hw1 x hx
      · subst hx
        exact ⟨hne, by simp [WellShaped, selectionInline, hlt]⟩

theorem invariant_apply {Doc Step : Type} {self : ClientID} {D : DecorationSet}
    (h : PluginInvariant self D) (transaction : Transaction Doc Step) :
    PluginInvariant self (sharedSelectionPlugin.apply self transaction D) := by
  unfold sharedSelectionPlugin.apply
  exact invariant_handleCommand (invariant_map h _) _

theorem invariant_foldl {Doc Step : Type} (self : ClientID)
    (transactions : List (Transaction Doc Step)) (D : DecorationSet)
    (h : PluginInvariant self D) :
    PluginInvariant self (transactions.foldl (fun decorationSet transaction =>
      sharedSelectionPlugin.apply self transaction decorationSet) D) := by
  induction transactions generalizing D with
  | nil => exact h
  | cons t rest ih => exact ih _ (invariant_apply h t)

theorem invariant_run {Doc Step : Type} (self : ClientID)
    (transactions : List (Transaction Doc Step)) :
    PluginInvariant self (sharedSelectionPlugin.run self transactions) := by
  unfold sharedSelectionPlugin.run
  apply invariant_foldl
  constructor
  · intro c k; simp [decorationsOf, DecorationSet.find, sharedSelectionPlugin.init, DecorationSet.empty]
  · intro x hx; simp [sharedSelectionPlugin.init, DecorationSet.empty] at hx


theorem keyed_map {D : DecorationSet} (h : Keyed D) (mapping : Mapping) :
    Keyed (DecorationSet.map D mapping) := by
  unfold DecorationSet.map
  split
  · exact h
  · intro c k
    have hk := h c k
    unfold decorationsOf DecorationSet.find at *
    rw [List.filter_filterMap]
    have : List.filterMap (fun x => Option.filter (specMatches c k) (Decoration.map mapping x)) D
        = List.filterMap (Decoration.map mapping) (List.filter (specMatches c k) D) := by
      rw [List.filterMap_filter]
      apply List.filterMap_congr
      intro x _
      cases hm : Decoration.map mapping x with
      | none => simp
      | some y =>
        have := specMatches_map hm c k
        by_cases hx : specMatches c k x = true
        · simp [Option.filter, hx, this]
        · simp [Option.filter, hx, this]
    rw [this]
    exact le_trans (List.length_filterMap_le _ _) hk

theorem apply_command {Doc Step : Type} (self : ClientID) (transaction : Transaction Doc Step)
    (command : Command) (D : DecorationSet) :
    sharedSelectionPlugin.apply self (transaction.setSelectionsMeta command) D
      = handleCommand self (some command) (DecorationSet.map D transaction.mapping) := rfl

theorem apply_state_command {Doc Step : Type} (self : ClientID) (state : EditorState Doc Step)
    (command : Command) (D : DecorationSet) :
    sharedSelectionPlugin.apply self (state.tr.setSelectionsMeta command) D
      = handleCommand self (some command) D := rfl

/-- Claim C10: the presence overlay is keyed by (clientID, kind).  In the plugin state
reached from `init` by any sequence of transactions (each `apply` first remaps the set
through the transaction's mapping and then handles a `set` or `remove` command, if any),
every client has at most one cursor decoration and at most one selection-range
decoration. -/
theorem overlay_keyed_by_client_and_kind {Doc Step : Type} (clientID : ClientID)
    (transactions : List (Transaction Doc Step)) (c : ClientID) :
    (decorationsOf (sharedSelectionPlugin.run clientID transactions) c .cursor).length ≤ 1 ∧
    (decorationsOf (sharedSelectionPlugin.run clientID transactions) c .selection).length ≤ 1 :=
  ⟨(invariant_run clientID transactions).1 c .cursor,
   (invariant_run clientID transactions).1 c .selection⟩

/-- Claim C7: for a decoration set holding at most one cursor and at most one selection
range per client, a client `c` other than the plugin's own and a selection with
`from ≤ to`, `apply` with the command `set` yields a set with exactly one cursor of `c`,
placed at `selection.from`, and with exactly one selection range of `c` spanning
`(from, to)` when `from ≠ to`, none when `from = to`. -/
theorem set_command_upserts {Doc Step : Type} (clientID c : ClientID) (s : Selection)
    (D : DecorationSet) (transaction : Transaction Doc Step)
    (hk : Keyed D) (hc : c ≠ clientID) (hs : s.from_ ≤ s.to_) :
    (∃ d, decorationsOf (sharedSelectionPlugin.apply clientID
        (transaction.setSelectionsMeta (.set s c)) D) c .cursor = [d] ∧ d.from_ = s.from_) ∧
    decorationsOf (sharedSelectionPlugin.apply clientID
        (transaction.setSelectionsMeta (.set s c)) D) c .selection
      = if s.from_ = s.to_ then [] else [selectionInline s.from_ s.to_ c] := by
  rw [apply_command]
  have hk0 := keyed_map hk transaction.mapping
  generalize DecorationSet.map D transaction.mapping = D0 at hk0
  simp only [handleCommand, hc, if_false]
  obtain ⟨d, hm, hfrom, _, hp1⟩ := setCursor_perm hk0 s c
  have hk1 := setCursor_keyed hk0 s c
  have hp2 := setRange_perm hk1 s c (Or.inl hs)
  unfold decorationsOf DecorationSet.find
  constructor
  · refine ⟨d, ?_, hfrom⟩
    have h1 := hp2.filter (specMatches c .cursor)
    have h2 := hp1.filter (specMatches c .cursor)
    rw [List.filter_append, List.filter_filter] at h1
    have e1 : List.filter (fun a => specMatches c .cursor a && !specMatches c .selection a)
        (setCursor D0 s c) = List.filter (specMatches c .cursor) (setCursor D0 s c) := by
      apply List.filter_congr
      intro x _
      simp [specMatches]
      intro _ _ h; rw [h]; simp
    have e2 : List.filter (specMatches c .cursor)
        (if s.from_ < s.to_ then [selectionInline s.from_ s.to_ c] else []) = [] := by
      split <;> simp [specMatches, selectionInline]
    rw [e1, e2, List.append_nil] at h1
    rw [List.filter_append, List.filter_filter] at h2
    have e3 : List.filter (fun a => specMatches c .cursor a && !specMatches c .cursor a) D0 = [] := by
      simp
    rw [e3] at h2
    simp only [List.nil_append, List.filter_cons, hm, if_true, List.filter_nil] at h2
    exact List.perm_singleton.mp (h1.trans h2)
  · have h1 := hp2.filter (specMatches c .selection)
    rw [List.filter_append, List.filter_filter] at h1
    have e3 : List.filter (fun a => specMatches c .selection a && !specMatches c .selection a)
        (setCursor D0 s c) = [] := by simp
    rw [e3, List.nil_append] at h1
    by_cases heq : s.from_ = s.to_
    · have hlt : ¬ s.from_ < s.to_ := by omega
      simp only [hlt, if_false, List.filter_nil] at h1
      simp only [heq, if_true]
      exact List.perm_nil.mp h1
    · have hlt : s.from_ < s.to_ := by omega
      simp only [hlt, if_true] at h1
      simp only [heq, if_false]
      have e4 : List.filter (specMatches c .selection) [selectionInline s.from_ s.to_ c]
          = [selectionInline s.from_ s.to_ c] := by simp [specMatches, selectionInline]
      rw [e4] at h1
      exact List.perm_singleton.mp h1

/-- Witness of `set_command_upserts`, on the example of the specification: after
`set {3,3}` for client `"B"` the set holds one cursor at 3; `set {3,7}` then gives one
cursor at 3 and one range `(3, 7)`. -/
theorem set_command_upserts_witness :
    sharedSelectionPlugin.apply (.str "A")
        (demoState.tr.setSelectionsMeta (.set ⟨3, 3⟩ (.str "B"))) sharedSelectionPlugin.init
      = [cursorWidget 3 (.str "B")] ∧
    Keyed [cursorWidget 3 (.str "B")] ∧
    ((∃ d, decorationsOf (sharedSelectionPlugin.apply (.str "A")
        (demoState.tr.setSelectionsMeta (.set ⟨3, 7⟩ (.str "B")))
        [cursorWidget 3 (.str "B")]) (.str "B") .cursor = [d] ∧ d.from_ = 3) ∧
      decorationsOf (sharedSelectionPlugin.apply (.str "A")
        (demoState.tr.setSelectionsMeta (.set ⟨3, 7⟩ (.str "B")))
        [cursorWidget 3 (.str "B")]) (.str "B") .selection
        = [selectionInline 3 7 (.str "B")]) ∧
    sharedSelectionPlugin.apply (.str "A")
        (demoState.tr.setSelectionsMeta (.set ⟨3, 7⟩ (.str "B"))) [cursorWidget 3 (.str "B")]
      = [cursorWidget 3 (.str "B"), selectionInline 3 7 (.str "B")] := by
  have hk : Keyed [cursorWidget 3 (.str "B")] := by
    intro c k
    simp only [decorationsOf, DecorationSet.find, List.filter]
    split <;> simp
  exact ⟨by decide, hk,
    set_command_upserts (.str "A") (.str "B") ⟨3, 7⟩ [cursorWidget 3 (.str "B")]
      demoState.tr hk (by decide) (by decide), by decide⟩

/-- Claim C9: for every decoration set the plugin can hold, every client `c` and every
selection `s`, the command `remove` for `c` followed by the command `set` for `(c, s)`
(each sent as `state.tr.setMeta("selections", ...)`, as `removeSelection` and
`setSelection` do) yields the same collection of decorations as the command `set` for
`(c, s)` alone. -/
theorem remove_then_set_equals_set {Doc Step : Type} (clientID : ClientID)
    (transactions : List (Transaction Doc Step)) (c : ClientID) (s : Selection)
    (state1 state2 : EditorState Doc Step) :
    (sharedSelectionPlugin.apply clientID (state2.tr.setSelectionsMeta (.set s c))
      (sharedSelectionPlugin.apply clientID (state1.tr.setSelectionsMeta (.remove c))
        (sharedSelectionPlugin.run clientID transactions))).Perm
    (sharedSelectionPlugin.apply clientID (state2.tr.setSelectionsMeta (.set s c))
      (sharedSelectionPlugin.run clientID transactions)) := by
  rw [apply_state_command, apply_state_command, apply_state_command]
  have hinv := invariant_run clientID transactions
  generalize sharedSelectionPlugin.run clientID transactions = D at hinv
  have hrem : handleCommand clientID (some (.remove c)) D = D.filter (othersOf c) := by
    simp only [handleCommand]
    exact removeDecorations_eq hinv.1 c
  rw [hrem]
  by_cases hc : c = clientID
  · subst hc
    simp only [handleCommand, if_true]
    rw [List.filter_eq_self.mpr]
    intro x hx
    have := (hinv.2 x hx).1
    simp [othersOf, this]
  · simp only [handleCommand, hc, if_false]
    have hk2 : Keyed (D.filter (othersOf c)) := keyed_filter hinv.1 _
    have hw2 : ∀ x ∈ D.filter (othersOf c), WellShaped x :=
      fun x hx => (hinv.2 x (List.mem_filter.mp hx).1).2
    have h1 := set_perm_canonical hk2 hw2 s c
    have h2 := set_perm_canonical hinv.1 (fun x hx => (hinv.2 x hx).2) s c
    have e : canonicalSet (D.filter (othersOf c)) s c = canonicalSet D s c := by
      unfold canonicalSet
      rw [List.filter_filter]
      simp
    rw [e] at h1
    exact h1.trans h2.symm

/-! ## The change announcer and step reception -/

variable {Doc Step JSON : Type}

theorem announceChange_idle (w : World Doc Step JSON) (detail : Detail JSON)
    (h : w.editor.debouncer = none) :
    announceChange w detail =
      { editor := { w.editor with debounceDetail := some detail,
                                  debouncer := some (w.window.lastHandle + 1) }
        window := { w.window with
          lastHandle := w.window.lastHandle + 1
          timers := w.window.timers ++
            [{ handle := w.window.lastHandle + 1, delay := debounceDelay w.editor.debounceTime }] } } := by
  simp [announceChange, h, truthyNumber, debounceDelay]

theorem announceChange_pending (w : World Doc Step JSON) (detail : Detail JSON) (handle : Nat)
    (h : w.editor.debouncer = some (handle + 1)) :
    announceChange w detail =
      { w with editor := { w.editor with debounceDetail := some detail } } := by
  simp [announceChange, h, truthyNumber]

theorem foldl_announceChange_pending (details : List (Detail JSON)) (w : World Doc Step JSON)
    (handle : Nat) (h : w.editor.debouncer = some (handle + 1)) :
    details.foldl announceChange w =
      { w with editor := { w.editor with
          debounceDetail := (details.getLast?).or w.editor.debounceDetail } } := by
  induction details generalizing w with
  | nil => simp
  | cons d rest ih =>
    rw [List.foldl_cons, ih (announceChange w d) (by rw [announceChange_pending w d handle h]; exact h)]
    rw [announceChange_pending w d handle h]
    cases rest with
    | nil => simp
    | cons e rest2 =>
      simp only [List.getLast?_cons_cons]
      rw [List.getLast?_eq_getLast _ (List.cons_ne_nil e rest2)]
      simp

theorem fireTimer_live (w : World Doc Step JSON) (handle : Nat) (element : Element)
    (timer : Timer) (hmem : timer ∈ w.window.timers) (hh : timer.handle = handle)
    (hel : w.editor.element = some element) :
    (fireTimer w handle).window.events =
        w.window.events ++ [(element, changeEvent w.editor.debounceDetail)] ∧
      (fireTimer w handle).editor.debouncer = none ∧
      (fireTimer w handle).editor.debounceDetail = none := by
  unfold fireTimer
  cases hf : w.window.timers.find? (fun timer => timer.handle == handle) with
  | none =>
    rw [List.find?_eq_none] at hf
    have := hf timer hmem
    simp [hh] at this
  | some t =>
    simp [debounceCallback, hel, changeEvent]


theorem fireTimer_destroyed (w : World Doc Step JSON) (handle : Nat)
    (timer : Timer) (hmem : timer ∈ w.window.timers) (hh : timer.handle = handle)
    (hel : w.editor.element = none) :
    (fireTimer w handle).window.uncaught =
        w.window.uncaught ++
          [.typeError "Cannot read properties of null (reading 'dispatchEvent')"] ∧
      (fireTimer w handle).window.events = w.window.events ∧
      (fireTimer w handle).editor = w.editor := by
  unfold fireTimer
  cases hf : w.window.timers.find? (fun timer => timer.handle == handle) with
  | none =>
    rw [List.find?_eq_none] at hf
    have := hf timer hmem
    simp [hh] at this
  | some t =>
    simp [debounceCallback, hel]

theorem destroy_after_announce (w : World Doc Step JSON) (detail : Detail JSON)
    (hidle : w.editor.debouncer = none) :
    (destroy (announceChange w detail)).window.timers =
      w.window.timers ++
        [{ handle := w.window.lastHandle + 1, delay := debounceDelay w.editor.debounceTime }] ∧
    (destroy (announceChange w detail)).editor.element = none ∧
    (destroy (announceChange w detail)).window.uncaught = w.window.uncaught ∧
    (destroy (announceChange w detail)).window.events = w.window.events ∧
    (destroy (announceChange w detail)).editor.debouncer = some (w.window.lastHandle + 1) := by
  rw [announceChange_idle w detail hidle]
  exact ⟨rfl, rfl, rfl, rfl, rfl⟩

/-- Claim C2: on a live editor with an idle announcer, a non-empty sequence of
`announceChange` calls `d, ds` schedules exactly one timer (the first call does; the
later calls change nothing but `debounceDetail`), and when that timer fires exactly one
`pmdocumentchange` event is dispatched, whose detail is the last payload of the sequence;
afterwards `debouncer` and `debounceDetail` are `null`. -/
theorem debounce_coalesces_calls (w : World Doc Step JSON) (element : Element)
    (d : Detail JSON) (ds : List (Detail JSON))
    (hel : w.editor.element = some element)
    (hidle : w.editor.debouncer = none) (_hdetail : w.editor.debounceDetail = none) :
    (d :: ds).foldl announceChange w =
      { editor := { w.editor with
          debouncer := some (w.window.lastHandle + 1)
          debounceDetail := some ((d :: ds).getLast (List.cons_ne_nil d ds)) }
        window := { w.window with
          lastHandle := w.window.lastHandle + 1
          timers := w.window.timers ++
            [{ handle := w.window.lastHandle + 1,
               delay := debounceDelay w.editor.debounceTime }] } } ∧
    (fireTimer ((d :: ds).foldl announceChange w) (w.window.lastHandle + 1)).window.events =
      w.window.events ++
        [(element, changeEvent (some ((d :: ds).getLast (List.cons_ne_nil d ds))))] ∧
    (fireTimer ((d :: ds).foldl announceChange w) (w.window.lastHandle + 1)).editor.debouncer
      = none ∧
    (fireTimer ((d :: ds).foldl announceChange w)
      (w.window.lastHandle + 1)).editor.debounceDetail = none := by
  have hfold : (d :: ds).foldl announceChange w =
      { editor := { w.editor with
          debouncer := some (w.window.lastHandle + 1)
          debounceDetail := some ((d :: ds).getLast (List.cons_ne_nil d ds)) }
        window := { w.window with
          lastHandle := w.window.lastHandle + 1
          timers := w.window.timers ++
            [{ handle := w.window.lastHandle + 1,
               delay := debounceDelay w.editor.debounceTime }] } } := by
    rw [List.foldl_cons, announceChange_idle w d hidle,
      foldl_announceChange_pending ds _ w.window.lastHandle rfl]
    cases ds with
    | nil => simp
    | cons e rest =>
      simp only [List.getLast_cons_cons]
      rw [List.getLast?_eq_getLast _ (List.cons_ne_nil e rest)]
      simp
  refine ⟨hfold, ?_⟩
  rw [hfold]
  have := fireTimer_live
    ({ editor := { w.editor with
          debouncer := some (w.window.lastHandle + 1)
          debounceDetail := some ((d :: ds).getLast (List.cons_ne_nil d ds)) }
       window := { w.window with
          lastHandle := w.window.lastHandle + 1
          timers := w.window.timers ++
            [{ handle := w.window.lastHandle + 1,
               delay := debounceDelay w.editor.debounceTime }] } } : World Doc Step JSON)
    (w.window.lastHandle + 1) element
    { handle := w.window.lastHandle + 1, delay := debounceDelay w.editor.debounceTime }
    (by simp) rfl hel
  exact this

/-- Witness of `debounce_coalesces_calls`: two announcements on the example editor, then
the timer with handle 1 fires and one event with the second payload is dispatched. -/
theorem debounce_coalesces_calls_witness :
    demoWorld.editor.element = some "editor" ∧
    (fireTimer ([⟨[[2, 33]], none, 5⟩, ⟨[[2, 33], [3, 33]], some [4, 4], 5⟩].foldl
        announceChange demoWorld) 1).window.events =
      [("editor", changeEvent (some ⟨[[2, 33], [3, 33]], some [4, 4], 5⟩))] :=
  ⟨rfl, (debounce_coalesces_calls demoWorld "editor" ⟨[[2, 33]], none, 5⟩
    [⟨[[2, 33], [3, 33]], some [4, 4], 5⟩] rfl rfl rfl).2.1⟩

/-- Claim C3, evaluated on the code: a change is announced on a live editor with an idle
announcer and `destroy()` is called before the timer fires.  The timer is still
outstanding after `destroy()` and the element is `null`; when the timer fires, its
callback throws a `TypeError` on `this.element.dispatchEvent`, dispatches nothing and
never resets `debouncer`.  The last part evaluates the example editor. -/
theorem destroy_leaves_timer_outstanding :
    (∀ (editor : MarkdownEditorView Doc Step JSON) (window : Window JSON) (element : Element)
      (detail : Detail JSON),
      (destroy (announceChange
          { editor := { editor with element := some element, debouncer := none },
            window := window } detail)).window.timers
        = window.timers ++
          [{ handle := window.lastHandle + 1, delay := debounceDelay editor.debounceTime }] ∧
      (destroy (announceChange
          { editor := { editor with element := some element, debouncer := none },
            window := window } detail)).editor.element = none ∧
      (fireTimer (destroy (announceChange
          { editor := { editor with element := some element, debouncer := none },
            window := window } detail)) (window.lastHandle + 1)).window.uncaught
        = window.uncaught ++
          [.typeError "Cannot read properties of null (reading 'dispatchEvent')"] ∧
      (fireTimer (destroy (announceChange
          { editor := { editor with element := some element, debouncer := none },
            window := window } detail)) (window.lastHandle + 1)).window.events
        = window.events ∧
      (fireTimer (destroy (announceChange
          { editor := { editor with element := some element, debouncer := none },
            window := window } detail)) (window.lastHandle + 1)).editor.debouncer
        = some (window.lastHandle + 1)) ∧
    (destroy (announceChange demoWorld ⟨[[2, 33]], none, 5⟩)).window.timers
      = [{ handle := 1, delay := 500 }] ∧
    (fireTimer (destroy (announceChange demoWorld ⟨[[2, 33]], none, 5⟩)) 1).window.uncaught
      = [.typeError "Cannot read properties of null (reading 'dispatchEvent')"] ∧
    (fireTimer (destroy (announceChange demoWorld ⟨[[2, 33]], none, 5⟩)) 1).window.events
      = [] ∧
    (fireTimer (destroy (announceChange demoWorld ⟨[[2, 33]], none, 5⟩)) 1).editor.debouncer
      = some 1 := by
  refine ⟨?_, by decide, by decide, by decide, by decide⟩
  intro editor window element detail
  obtain ⟨h1, h2, h3, h4, h5⟩ := destroy_after_announce
    ({ editor := { editor with element := some element, debouncer := none },
       window := window } : World Doc Step JSON) detail rfl
  have hf := fireTimer_destroyed _ (window.lastHandle + 1)
    { handle := window.lastHandle + 1, delay := debounceDelay editor.debounceTime }
    (by rw [h1]; simp) rfl h2
  exact ⟨h1, h2, by rw [hf.1, h3], by rw [hf.2.1, h4], by rw [hf.2.2, h5]⟩

/-- Claim C5: for a transaction that `dispatchTransaction` applies to the state of the
view: with sendable steps in the new state the announced payload holds those steps
serialised in order, the transaction's selection if the transaction set it and `null`
otherwise, and the sendable version; without sendable steps but with the selection set the
payload holds no steps, the transaction's selection and the collab version of the new
state; without sendable steps and with the selection not set nothing is announced.  An
announced payload is what `announceChange` stores in `debounceDetail`. -/
theorem dispatch_announces_payload [DecidableEq Doc] (E : Engine Doc Step JSON)
    (w : World Doc Step JSON) (state newState : EditorState Doc Step)
    (transaction : Transaction Doc Step)
    (hview : w.editor.view = some state) (happly : state.apply transaction = .ok newState) :
    (∀ sendable, sendableSteps newState = some sendable →
      sendable.steps = newState.collab.unconfirmed ∧ sendable.steps ≠ [] ∧
      dispatchTransaction E w transaction = announceChange (updateState w newState)
        { steps := sendable.steps.map E.stepToJSON
          selection :=
            if transaction.selectionSet then some (E.selectionToJSON transaction.selection)
            else none
          version := sendable.version }) ∧
    (sendableSteps newState = none → transaction.selectionSet = true →
      newState.collab.unconfirmed = [] ∧
      dispatchTransaction E w transaction = announceChange (updateState w newState)
        { steps := []
          selection := some (E.selectionToJSON transaction.selection)
          version := getVersion newState }) ∧
    (sendableSteps newState = none → transaction.selectionSet = false →
      dispatchTransaction E w transaction = updateState w newState) ∧
    (∀ (w2 : World Doc Step JSON) (detail : Detail JSON),
      (announceChange w2 detail).editor.debounceDetail = some detail) := by
  have hrun : (viewState w >>= fun state => state.apply transaction) = .ok newState := by
    simp [viewState, hview, happly, bind, Except.bind]
  refine ⟨?_, ?_, ?_, ?_⟩
  · intro sendable hs
    refine ⟨?_, ?_, ?_⟩
    · unfold sendableSteps at hs
      split at hs
      · simp at hs
      · simp at hs; rw [← hs]
    · unfold sendableSteps at hs
      split at hs
      · simp at hs
      · next hne =>
        simp at hs; rw [← hs]; simp
        intro h; rw [h] at hne; simp at hne
    · unfold dispatchTransaction
      rw [hrun]
      simp only [hs]
  · intro hs hsel
    refine ⟨?_, ?_⟩
    · unfold sendableSteps at hs
      split at hs
      · next h => exact List.eq_nil_of_length_eq_zero h
      · simp at hs
    · unfold dispatchTransaction
      rw [hrun]
      simp only [hs, hsel, if_true]
  · intro hs hsel
    unfold dispatchTransaction
    rw [hrun]
    simp [hs, hsel]
  · intro w2 detail
    unfold announceChange
    simp only
    split <;> rfl

/-- Witness of `dispatch_announces_payload`: the example edit leaves one sendable step,
which is announced with no selection at version 5. -/
theorem dispatch_announces_payload_witness :
    (dispatchTransaction demoEngine demoWorld demoEdit).editor.debounceDetail
      = some { steps := [[2, 33]], selection := none, version := 5 } := by
  have h := dispatch_announces_payload demoEngine demoWorld
    demoState
    { doc := [104, 105, 33], selection := { from_ := 3, to_ := 3 },
      collab := { version := 5, unconfirmed := [{ pos := 2, char := 33 }] },
      collabClientID := .str "A", clientID := .str "A", decorations := [] }
    demoEdit rfl rfl
  rw [(h.1 { version := 5, steps := [{ pos := 2, char := 33 }] } (by decide)).2.2]
  decide


theorem announceChange_frame (w : World Doc Step JSON) (detail : Detail JSON) :
    (announceChange w detail).editor.view = w.editor.view ∧
    (announceChange w detail).editor.element = w.editor.element ∧
    (announceChange w detail).editor.clientID = w.editor.clientID ∧
    (announceChange w detail).window.events = w.window.events ∧
    (announceChange w detail).window.console = w.window.console := by
  unfold announceChange
  simp only
  split <;> simp

/-- Claim C1, amended: `receiveSteps` does not read its `version` argument, so a batch
is handled in the same way whatever version it is sent with; and whenever receiving
fails (a step cannot be decoded, `receiveTransaction` throws, or the transaction cannot
be applied) the error is caught and logged and the editor, with its document state,
confirmed version and unconfirmed steps, is exactly as before the call. -/
theorem receiveSteps_ignores_version [DecidableEq Doc] (E : Engine Doc Step JSON)
    (w : World Doc Step JSON) (steps : List JSON) (version version2 : Nat)
    (selection : Option JSON) (clientID : ClientID) :
    receiveSteps E w steps version selection clientID
      = receiveSteps E w steps version2 selection clientID ∧
    (∀ error, receiveStepsState E w steps clientID = .error error →
      receiveSteps E w steps version selection clientID
        = consoleError w ("Error receiving steps: " ++ error.text) ∧
      (receiveSteps E w steps version selection clientID).editor = w.editor) := by
  refine ⟨rfl, ?_⟩
  intro error herr
  unfold receiveSteps
  rw [herr]
  exact ⟨rfl, rfl⟩

/-- Witness of `receiveSteps_ignores_version`: a step that cannot be decoded makes
receiving fail, and the editor is left as it was. -/
theorem receiveSteps_ignores_version_witness :
    receiveStepsState demoEngine demoWorld [[0]] (.str "B")
      = .error (.rangeError "Invalid input for Step.fromJSON") ∧
    (receiveSteps demoEngine demoWorld [[0]] 5 none (.str "B")).editor = demoWorld.editor :=
  ⟨rfl, ((receiveSteps_ignores_version demoEngine demoWorld [[0]] 5 3 none (.str "B")).2
    (.rangeError "Invalid input for Step.fromJSON") rfl).2⟩

/-- Claim C1 fails as stated: the example editor is at confirmed version 5 and receives
one step of client `"B"` with version 3.  No error is logged, the document changes from
`"hi"` to `"!hi"` and the confirmed version becomes 6. -/
theorem receiveSteps_stale_version_counterexample :
    (demoWorld.editor.view.map fun state => state.collab.version) = some 5 ∧
    (receiveSteps demoEngine demoWorld [[0, 33]] 3 none (.str "B")).window.console = [] ∧
    ((receiveSteps demoEngine demoWorld [[0, 33]] 3 none (.str "B")).editor.view.map
      fun state => state.doc) = some [33, 104, 105] ∧
    ((receiveSteps demoEngine demoWorld [[0, 33]] 3 none (.str "B")).editor.view.map
      fun state => state.collab.version) = some 6 := by
  decide

/-- Claim C6: the presence of the plugin's own client is never rendered.  No decoration
of a plugin state reached from `init` carries the plugin's own clientID; `apply` with a
`set` command for the own clientID returns the remapped set, which is the set itself for
the transaction `setSelection` builds; `setSelection` with a `null` selection, with an
absent or `null` clientID, or with the editor's own clientID changes nothing at all; and
`setSelection` with the clientID of the view's plugin leaves the decorations of the view
as they are. -/
theorem own_presence_never_rendered [DecidableEq Doc] :
    (∀ (clientID : ClientID) (transactions : List (Transaction Doc Step)) (d : Decoration),
      d ∈ sharedSelectionPlugin.run clientID transactions → d.clientID ≠ clientID) ∧
    (∀ (clientID : ClientID) (transaction : Transaction Doc Step) (selection : Selection)
      (D : DecorationSet),
      sharedSelectionPlugin.apply clientID
        (transaction.setSelectionsMeta (.set selection clientID)) D
        = DecorationSet.map D transaction.mapping) ∧
    (∀ (clientID : ClientID) (state : EditorState Doc Step) (selection : Selection)
      (D : DecorationSet),
      sharedSelectionPlugin.apply clientID
        (state.tr.setSelectionsMeta (.set selection clientID)) D = D) ∧
    (∀ (E : Engine Doc Step JSON) (w : World Doc Step JSON) (clientID : ClientID),
      setSelection E w none clientID = w) ∧
    (∀ (E : Engine Doc Step JSON) (w : World Doc Step JSON) (selection : Option JSON),
      setSelection E w selection .undefined = w ∧ setSelection E w selection .null = w) ∧
    (∀ (E : Engine Doc Step JSON) (w : World Doc Step JSON) (selection : Option JSON),
      setSelection E w selection w.editor.clientID = w) ∧
    (∀ (E : Engine Doc Step JSON) (editor : MarkdownEditorView Doc Step JSON)
      (window : Window JSON) (state : EditorState Doc Step) (selection : Option JSON),
      ((setSelection E { editor := { editor with view := some state }, window := window }
          selection state.clientID).editor.view.map fun newState => newState.decorations)
        = some state.decorations) := by
  refine ⟨?_, ?_, ?_, ?_, ?_, ?_, ?_⟩
  · intro clientID transactions d hd
    exact ((invariant_run clientID transactions).2 d hd).1
  · intro clientID transaction selection D
    rw [apply_command]
    simp [handleCommand]
  · intro clientID state selection D
    rw [apply_state_command]
    simp [handleCommand]
  · intro E w clientID
    rfl
  · intro E w selection
    cases selection <;> simp [setSelection, ClientID.truthy]
  · intro E w selection
    cases selection <;> simp [setSelection]
  · intro E editor window state selection
    cases selection with
    | none => rfl
    | some json =>
      unfold setSelection
      simp only
      split
      · rfl
      · simp only [viewState, bind, Except.bind]
        cases hp : E.selectionFromJSON state.doc json with
        | error e =>
          simp only [Except.map]
          split <;> rfl
        | ok parsed =>
          simp only [Except.map, viewDispatch]
          unfold dispatchTransaction
          simp only [viewState, bind, Except.bind, EditorState.apply, EditorState.tr,
            Transaction.setSelectionsMeta, ne_eq, not_true_eq_false, if_false]
          have hd : sharedSelectionPlugin.apply state.clientID
              ({ before := state.doc, doc := state.doc, steps := [], mapping := Mapping.empty,
                 selection := state.selection, selectionSet := false,
                 selections := some (.set parsed state.clientID), collabMeta := none } :
                Transaction Doc Step) state.decorations = state.decorations := by
            simp [sharedSelectionPlugin.apply, handleCommand, DecorationSet.map, Mapping.empty]
          split
          · rw [(announceChange_frame _ _).1]
            simp [updateState, hd]
          · simp [updateState, hd]

end CpProsemirror
